import Mathlib

/-!
Verification development for the node-cassandra ORM core
(schema validation, DDL generation, query/update compilation,
pre-connection statement queue), shallowly embedded from the
JavaScript sources in `src/`.

JavaScript values are modelled by the inductive `JSVal`; host-language
behaviours that the code relies on (truthiness, `.length`, `isNaN`
number coercion, `for..in` enumeration, property access throwing on
`null`/`undefined`) are modelled by explicit functions below, each
faithful to ECMAScript semantics on the value shapes the library
manipulates (strings, integers, arrays, plain objects, driver Uuid
instances).
-/

namespace NodeCassandra

/-- Model of a JavaScript value as manipulated by the library. -/
inductive JSVal where
  | vNull
  | vUndefined
  | vBool (b : Bool)
  | vNum (n : Int)
  | vStr (s : String)
  | vArr (elems : List JSVal)
  | vObj (fields : List (String × JSVal))
  | vUuid (hex : String)
  | vFun (name : String) (arity : Nat)
deriving Repr

/-- JS truthiness of a value (`if (v)`). -/
def jsTruthy : JSVal → Bool
  | .vNull => false
  | .vUndefined => false
  | .vBool b => b
  | .vNum n => n ≠ 0
  | .vStr s => s ≠ ""
  | .vArr _ => true
  | .vObj _ => true
  | .vUuid _ => true
  | .vFun _ _ => true

/-- Property read `v.length`: throws a `TypeError` on `null` and
`undefined`; a string or array yields its length, a plain object
yields its own `length` field (`undefined` when absent), a function
its arity, and any other value `undefined`. -/
def jsLengthProp : JSVal → Except String JSVal
  | .vNull => .error "TypeError: Cannot read property of null"
  | .vUndefined => .error "TypeError: Cannot read property of undefined"
  | .vStr s => .ok (.vNum s.length)
  | .vArr l => .ok (.vNum l.length)
  | .vObj fs => .ok ((fs.lookup "length").getD .vUndefined)
  | .vFun _ arity => .ok (.vNum arity)
  | _ => .ok .vUndefined

/-- Decimal integer fragment of JS string-to-number coercion:
an (optionally signed) digit string parses, the empty string coerces
to `0`, anything else is NaN (`none`).  The library only ever relies
on this fragment (plain identifiers vs. digit strings). -/
def parseJsNumber (s : String) : Option Int :=
  if s = "" then some 0
  else
    let (sign, digits) :=
      match s.data with
      | '-' :: rest => ((-1 : Int), rest)
      | '+' :: rest => ((1 : Int), rest)
      | l => ((1 : Int), l)
    if digits ≠ [] ∧ digits.all Char.isDigit then
      some (sign * (String.mk digits).toNat!)
    else none

/-- JS `Number(v)` coercion, `none` standing for NaN. -/
def jsToNumber : JSVal → Option Int
  | .vNull => some 0
  | .vUndefined => none
  | .vBool b => some (if b then 1 else 0)
  | .vNum n => some n
  | .vStr s => parseJsNumber s
  | .vArr [] => some 0
  | .vArr [x] => jsToNumber x
  | .vArr (_ :: _ :: _) => none
  | .vObj _ => none
  | .vUuid _ => none
  | .vFun _ _ => none

/-- JS global `isNaN(v)` (coerces, then tests NaN). -/
def jsIsNaN (v : JSVal) : Bool :=
  (jsToNumber v).isNone

/-- Is the value a driver `Uuid` instance? -/
def isUuid : JSVal → Bool
  | .vUuid _ => true
  | _ => false

/-- Is the value a JS array (`Array.isArray`)? -/
def isJsArray : JSVal → Bool
  | .vArr _ => true
  | _ => false

/-- Is the value a JS function (`typeof v === 'function'`)? -/
def isJsFunction : JSVal → Bool
  | .vFun _ _ => true
  | _ => false

/-- Enumerable own properties visited by `for..in`: an object's fields
in insertion order, an array's (or string's) index keys, nothing for
primitives (and, notably, nothing for `null`/`undefined`, over which
`for..in` iterates zero times without throwing). -/
def jsOwnFields : JSVal → List (String × JSVal)
  | .vObj fs => fs
  | .vArr l => l.enum.map (fun p => (toString p.1, p.2))
  | .vStr s => s.data.enum.map (fun p => (toString p.1, .vStr (String.mk [p.2])))
  | _ => []

/-- Property read `v[k]`: throws a `TypeError` on `null`/`undefined`,
yields `undefined` for a missing key. -/
def jsGet (v : JSVal) (k : String) : Except String JSVal :=
  match v with
  | .vNull => .error "TypeError: Cannot read property of null"
  | .vUndefined => .error "TypeError: Cannot read property of undefined"
  | _ =>
    match (jsOwnFields v).lookup k with
    | some x => .ok x
    | none => .ok .vUndefined

/-! ### Primary-key clause builder

`Model._createPartitionKeyQuery` (src/lib/model.js lines 93-108,
src/unnamed/part_002 lines 98-113).  A primary-key declaration is a JS
array whose elements are column names or (for a composite partition
key, in first position) an array of column names. -/

/-- One element of a primary-key declaration array. -/
inductive PKElem where
  | col (name : String)
  | group (names : List String)
deriving Repr, DecidableEq

/-- JS `toString` of a declaration element as produced by
`Array.prototype.join` (nested arrays stringify comma-separated,
without spaces). -/
def pkElemToString : PKElem → String
  | .col s => s
  | .group g => String.intercalate "," g

/-- `Model._createPartitionKeyQuery`: converts a primary-key
declaration array into the `PRIMARY KEY (...)` clause.  If the first
element is itself an array it becomes a parenthesised composite
partition key, followed (when present) by the clustering columns;
otherwise all elements are joined in declared order. -/
def createPartitionKeyQuery (primaryKeyArray : List PKElem) : String :=
  let body :=
    match primaryKeyArray with
    | .group g :: _ =>
      "(" ++ String.intercalate ", " g ++ ")"
        ++ (if primaryKeyArray.length > 1 then ", " else "")
        ++ String.intercalate ", " ((primaryKeyArray.drop 1).map pkElemToString)
    | _ => String.intercalate ", " (primaryKeyArray.map pkElemToString)
  "PRIMARY KEY (" ++ body ++ ")"

/-! ### Query compiler

`Model._buildQueryComponents` and `Model._qualifyQueryColumns`
(src/unnamed/part_002 lines 121-178; the src/lib/model.js variant
differs only in the scalar test, lacking the Uuid clause).  The
schema's `model` object (column name → type-name string) is embedded
as an association list. -/

/-- The comparison-operator map (`OperatorMap` in the source). -/
def operatorMap : String → Option String
  | "$gt" => some ">"
  | "$gte" => some ">="
  | "$lt" => some "<"
  | "$lte" => some "<="
  | "$eq" => some "="
  | _ => none

/-- The filtering-operator map (`FilterMap` in the source). -/
def filterMap : String → Option String
  | "$in" => some "IN"
  | "$contains" => some "CONTAINS"
  | "$containsKey" => some "CONTAINS KEY"
  | _ => none

/-- Truthiness of `schema.model[field]`: absent (`undefined`) or the
empty string is falsy. -/
def typeEntryFalsy (o : Option String) : Bool :=
  match o with
  | none => true
  | some t => t = ""

/-- `Model._qualifyQueryColumns`: collects the query object's keys in
encounter order, throwing on the first key that is not a declared
column of the schema model. -/
def qualifyQueryColumns (sm : List (String × String)) (modelName : String) :
    List (String × JSVal) → Except String (List String)
  | [] => .ok []
  | (field, _) :: rest =>
    if typeEntryFalsy (sm.lookup field) then
      .error ("Not a valid queryObject, could not find column: " ++ field
        ++ ", model: " ++ modelName)
    else do
      let cols ← qualifyQueryColumns sm modelName rest
      pure (field :: cols)

/-- The `?` marks of an `IN (...)` clause:
`new Array(n).join('?,') + '?'`. -/
def inMarks (n : Nat) : String :=
  String.intercalate "?," (List.replicate n "") ++ "?"

/-- `values.concat(v)`: an array argument is spread, anything else is
appended as a single element. -/
def jsConcatArg : JSVal → List JSVal
  | .vArr l => l
  | x => [x]

/-- `new Array(x)`: a numeric argument allocates that many holes,
while any non-numeric argument — `undefined` included — builds the
one-element array `[x]`.  (A negative count would raise a
`RangeError`; no call site produces one.) -/
def newArrayLength : JSVal → Nat
  | .vNum n => n.toNat
  | _ => 1

/-- One iteration of the operator loop of `_buildQueryComponents`
(part_002 lines 149-171), extending the accumulated WHERE-fragment and
value lists for a single `$`-operator entry of an operator object. -/
def operatorStep (column : String) (acc : List String × List JSVal)
    (p : String × JSVal) : Except String (List String × List JSVal) :=
  match operatorMap p.1 with
  | some sym => .ok (acc.1 ++ [column ++ sym ++ "=?"], acc.2 ++ [p.2])
  | none =>
    match filterMap p.1 with
    | none => .error ("Invalid Operator type, not supported: " ++ p.1)
    | some fsym =>
      if p.1 = "$in" then
        -- `new Array(value[operator].length)`: the `.length` read
        -- throws on a null/undefined operand
        match jsLengthProp p.2 with
        | .error e => .error e
        | .ok lv =>
          .ok (acc.1 ++ [column ++ " " ++ fsym ++ " (" ++ inMarks (newArrayLength lv) ++ ")"],
               acc.2 ++ jsConcatArg p.2)
      else
        .ok (acc.1 ++ [column ++ " " ++ fsym ++ " ?"], acc.2 ++ [p.2])

/-- The body of the per-column loop of `_buildQueryComponents`
(part_002 lines 141-171): the `value.length` read comes first and
throws on a `null`/`undefined` value; a value whose `.length` is
truthy, or that is not NaN under coercion, or that is a Uuid instance,
is bound as scalar equality; otherwise its own enumerable properties
are folded through `operatorStep`. -/
def queryValueStep (acc : List String × List JSVal) (column : String)
    (value : JSVal) : Except String (List String × List JSVal) :=
  match jsLengthProp value with
  | .error e => .error e
  | .ok lv =>
    if jsTruthy lv || !jsIsNaN value || isUuid value then
      .ok (acc.1 ++ [column ++ "=?"], acc.2 ++ [value])
    else
      (jsOwnFields value).foldlM (operatorStep column) acc

/-- The compiled components of a query object. -/
structure QueryComponents where
  whereText : String
  values : List JSVal
  columns : List String
deriving Repr

/-- `Model._buildQueryComponents`: qualifies the query object's
columns, folds each column's value through `queryValueStep`, and joins
the accumulated WHERE fragments with `' AND '`. -/
def buildQueryComponents (sm : List (String × String)) (modelName : String)
    (qo : List (String × JSVal)) : Except String QueryComponents := do
  let columns ← qualifyQueryColumns sm modelName qo
  let acc ← columns.foldlM
    (fun acc column => queryValueStep acc column ((qo.lookup column).getD .vUndefined))
    (([], []) : List String × List JSVal)
  pure ⟨String.intercalate " AND " acc.1, acc.2, columns⟩

/-- The components a single query-object entry contributes, starting
from empty accumulators. -/
def entryComponents (column : String) (value : JSVal) :
    Except String (List String × List JSVal) :=
  queryValueStep ([], []) column value

/-- The demo schema model of the spec example:
`{username: text, age: int}` plus a `name` column. -/
def demoSchemaModel : List (String × String) :=
  [("username", "text"), ("age", "int"), ("name", "text")]

/-- The spec example query object
`{username: 'foo', age: {$gt: 30, $lt: 50}}`. -/
def demoQuery : List (String × JSVal) :=
  [("username", .vStr "foo"),
   ("age", .vObj [("$gt", .vNum 30), ("$lt", .vNum 50)])]

@[simp] theorem pureExcept_eq {ε α : Type} (a : α) :
    (pure a : Except ε α) = .ok a := rfl

@[simp] theorem bindExcept_ok {ε α β : Type} (a : α) (f : α → Except ε β) :
    (Except.ok a : Except ε α) >>= f = f a := rfl

@[simp] theorem bindExcept_error {ε α β : Type} (e : ε) (f : α → Except ε β) :
    (Except.error e : Except ε α) >>= f = .error e := rfl

@[simp] theorem mapExcept_ok {ε α β : Type} (f : α → β) (a : α) :
    Except.map f (Except.ok a : Except ε α) = .ok (f a) := rfl

@[simp] theorem mapExcept_error {ε α β : Type} (f : α → β) (e : ε) :
    Except.map f (Except.error e : Except ε α) = .error e := rfl

theorem operatorStep_shift (c : String) (acc : List String × List JSVal)
    (p : String × JSVal) :
    operatorStep c acc p
      = (operatorStep c ([], []) p).map (fun q => (acc.1 ++ q.1, acc.2 ++ q.2)) := by
  unfold operatorStep
  cases h : operatorMap p.1 with
  | some sym => simp
  | none =>
    cases h2 : filterMap p.1 with
    | none => simp
    | some fsym =>
      by_cases h3 : p.1 = "$in"
      · cases h4 : jsLengthProp p.2 with
        | error e => simp [h3, h4]
        | ok lv => simp [h3, h4]
      · simp [h3]

theorem foldlM_operatorStep_shift (c : String) :
    ∀ (fields : List (String × JSVal)) (acc : List String × List JSVal),
      fields.foldlM (operatorStep c) acc
        = (fields.foldlM (operatorStep c) ([], [])).map
            (fun q => (acc.1 ++ q.1, acc.2 ++ q.2)) := by
  intro fields
  induction fields with
  | nil => intro acc; simp
  | cons f rest ih =>
    intro acc
    simp only [List.foldlM_cons]
    rw [operatorStep_shift c acc f]
    cases h : operatorStep c ([], []) f with
    | error e => simp
    | ok p =>
      simp only [mapExcept_ok, bindExcept_ok]
      rw [ih p, ih (acc.1 ++ p.1, acc.2 ++ p.2)]
      cases rest.foldlM (operatorStep c) ([], []) with
      | error e => simp
      | ok q => simp [List.append_assoc]

theorem queryValueStep_shift (acc : List String × List JSVal) (c : String)
    (v : JSVal) :
    queryValueStep acc c v
      = (entryComponents c v).map (fun q => (acc.1 ++ q.1, acc.2 ++ q.2)) := by
  unfold entryComponents queryValueStep
  cases hl : jsLengthProp v with
  | error e => simp
  | ok lv =>
    dsimp only
    by_cases h : (jsTruthy lv || !jsIsNaN v || isUuid v) = true
    · rw [if_pos h, if_pos h]; simp
    · rw [if_neg h, if_neg h]
      exact foldlM_operatorStep_shift c (jsOwnFields v) acc

theorem qualifyQueryColumns_ok_keys (sm : List (String × String))
    (name : String) :
    ∀ (qo : List (String × JSVal)) (cols : List String),
      qualifyQueryColumns sm name qo = .ok cols → cols = qo.map Prod.fst := by
  intro qo
  induction qo with
  | nil =>
    intro cols h
    simp only [qualifyQueryColumns] at h
    cases h
    rfl
  | cons e rest ih =>
    intro cols h
    simp only [qualifyQueryColumns] at h
    by_cases hf : typeEntryFalsy (sm.lookup e.1) = true
    · rw [if_pos hf] at h; exact absurd h (by simp)
    · rw [if_neg hf] at h
      cases hr : qualifyQueryColumns sm name rest with
      | error er => rw [hr] at h; simp at h
      | ok cs =>
        rw [hr] at h
        simp only [bindExcept_ok, pureExcept_eq] at h
        cases h
        simp [ih cs hr]

theorem foldlM_queryValueStep_shift_aux (val : String → JSVal) :
    ∀ (columns : List String) (acc : List String × List JSVal),
      columns.foldlM (fun a c => queryValueStep a c (val c)) acc
        = (columns.foldlM (fun a c => queryValueStep a c (val c)) (([], []) : List String × List JSVal)).map
            (fun q => (acc.1 ++ q.1, acc.2 ++ q.2)) := by
  intro columns
  induction columns with
  | nil => intro acc; simp
  | cons c rest ih =>
    intro acc
    simp only [List.foldlM_cons]
    rw [queryValueStep_shift acc c (val c),
      show queryValueStep ([], []) c (val c) = entryComponents c (val c) from rfl]
    cases h : entryComponents c (val c) with
    | error e => simp
    | ok p =>
      simp only [mapExcept_ok, bindExcept_ok]
      rw [ih p, ih (acc.1 ++ p.1, acc.2 ++ p.2)]
      cases rest.foldlM (fun a c => queryValueStep a c (val c)) ([], []) with
      | error e => simp
      | ok q => simp [List.append_assoc]

theorem foldlM_queryValueStep_parts (val : String → JSVal) :
    ∀ (columns : List String) (r : List String × List JSVal),
      columns.foldlM (fun a c => queryValueStep a c (val c)) (([], []) : List String × List JSVal) = .ok r →
      ∃ parts : List (List String × List JSVal),
        List.Forall₂ (fun c part => entryComponents c (val c) = .ok part) columns parts
        ∧ r.1 = (parts.map Prod.fst).flatten
        ∧ r.2 = (parts.map Prod.snd).flatten := by
  intro columns
  induction columns with
  | nil =>
    intro r h
    simp only [List.foldlM_nil, pureExcept_eq] at h
    cases h
    exact ⟨[], .nil, by simp, by simp⟩
  | cons c rest ih =>
    intro r h
    simp only [List.foldlM_cons] at h
    rw [show queryValueStep ([], []) c (val c) = entryComponents c (val c) from rfl] at h
    cases hp : entryComponents c (val c) with
    | error e => rw [hp] at h; simp at h
    | ok p =>
      rw [hp] at h
      simp only [bindExcept_ok] at h
      rw [foldlM_queryValueStep_shift_aux val rest p] at h
      cases hq : rest.foldlM (fun a c => queryValueStep a c (val c)) ([], []) with
      | error e => rw [hq] at h; simp at h
      | ok q =>
        rw [hq] at h
        simp only [mapExcept_ok] at h
        cases h
        obtain ⟨parts, hall, h1, h2⟩ := ih q hq
        exact ⟨p :: parts, .cons hp hall, by simp [h1], by simp [h2]⟩

/-- C1 counterexample: on `{username: 'foo', age: {$gt: 30, $lt: 50}}`
the compiler's WHERE text is `username=? AND age>=? AND age<=?` — the
operator clause is built as `column + symbol + '=?'` — which differs
from the claimed `username=? AND age>? AND age<?` with bare strict
symbols. -/
theorem buildQueryComponents_strict_symbol_refuted :
    (buildQueryComponents demoSchemaModel "test" demoQuery).map QueryComponents.whereText
      = .ok "username=? AND age>=? AND age<=?"
    ∧ ("username=? AND age>=? AND age<=?" : String) ≠ "username=? AND age>? AND age<?" :=
  ⟨rfl, by decide⟩

/-- C1 (amended): on `{username: 'foo', age: {$gt: 30, $lt: 50}}` the
query compiler produces the WHERE text
`username=? AND age>=? AND age<=?` — each comparison operator emits
the mapped symbol followed by `=?` — with value list
`['foo', 30, 50]` in exactly that order; and for every query object,
the WHERE text is the `' AND '`-join of the per-entry clause lists in
column-then-operator encounter order of the object's keys, with the
value list concatenated in the same order, so the output is
deterministic for a given key order. -/
theorem buildQueryComponents_compilation :
    buildQueryComponents demoSchemaModel "test" demoQuery
      = .ok ⟨"username=? AND age>=? AND age<=?",
             [.vStr "foo", .vNum 30, .vNum 50], ["username", "age"]⟩
    ∧ ∀ (sm : List (String × String)) (name : String)
        (qo : List (String × JSVal)) (comps : QueryComponents),
        buildQueryComponents sm name qo = .ok comps →
        ∃ parts : List (List String × List JSVal),
          List.Forall₂ (fun (e : String × JSVal) part =>
            entryComponents e.1 ((qo.lookup e.1).getD .vUndefined) = .ok part) qo parts
          ∧ comps.whereText = String.intercalate " AND " (parts.map Prod.fst).flatten
          ∧ comps.values = (parts.map Prod.snd).flatten
          ∧ comps.columns = qo.map Prod.fst := by
  refine ⟨rfl, ?_⟩
  intro sm name qo comps h
  unfold buildQueryComponents at h
  cases hc : qualifyQueryColumns sm name qo with
  | error e => rw [hc] at h; simp at h
  | ok cols =>
    rw [hc] at h
    simp only [bindExcept_ok] at h
    cases hf : cols.foldlM
        (fun acc column => queryValueStep acc column ((qo.lookup column).getD .vUndefined))
        (([], []) : List String × List JSVal) with
    | error e => rw [hf] at h; simp at h
    | ok r =>
      rw [hf] at h
      simp only [bindExcept_ok, pureExcept_eq] at h
      cases h
      have hkeys := qualifyQueryColumns_ok_keys sm name qo cols hc
      obtain ⟨parts, hall, h1, h2⟩ :=
        foldlM_queryValueStep_parts (fun c => (qo.lookup c).getD .vUndefined) cols r hf
      refine ⟨parts, ?_, by simpa using congrArg (String.intercalate " AND ") h1,
        by simpa using h2, hkeys.symm ▸ rfl⟩
      subst hkeys
      exact (List.forall₂_map_left_iff).mp hall

/-- C1 witness: the general join-order clause of
`buildQueryComponents_compilation` applied at the concrete demo query. -/
theorem buildQueryComponents_compilation_witness :
    ∃ parts : List (List String × List JSVal),
      List.Forall₂ (fun (e : String × JSVal) part =>
        entryComponents e.1 ((demoQuery.lookup e.1).getD .vUndefined) = .ok part) demoQuery parts
      ∧ ("username=? AND age>=? AND age<=?" : String)
          = String.intercalate " AND " (parts.map Prod.fst).flatten
      ∧ ([.vStr "foo", .vNum 30, .vNum 50] : List JSVal) = (parts.map Prod.snd).flatten
      ∧ (["username", "age"] : List String) = demoQuery.map Prod.fst :=
  buildQueryComponents_compilation.2 demoSchemaModel "test" demoQuery
    ⟨"username=? AND age>=? AND age<=?", [.vStr "foo", .vNum 30, .vNum 50], ["username", "age"]⟩
    buildQueryComponents_compilation.1

/-- C10 counterexample: `isNaN(null)` is false, yet a `null` query
value does not compile as scalar equality — the compiler throws a
`TypeError` at the `value.length` read, which the source evaluates
before the `isNaN` test. -/
theorem buildQueryComponents_null_value_refuted :
    jsIsNaN JSVal.vNull = false
    ∧ buildQueryComponents demoSchemaModel "test" [("username", JSVal.vNull)]
        = .error "TypeError: Cannot read property of null"
    ∧ (Except.error "TypeError: Cannot read property of null"
        : Except String QueryComponents)
      ≠ .ok ⟨"username=?", [JSVal.vNull], ["username"]⟩ :=
  ⟨rfl, rfl, by simp⟩

/-- C10 (amended): for every query value on which the `value.length`
property read does not throw, a truthy `.length`, or a false `isNaN`,
or being a Uuid instance makes the value compile as scalar equality
`column=?` with the value itself pushed as the single bound value; in
particular the empty string and the empty array have a falsy `.length`
but a false `isNaN`, so both are treated as scalar equality values,
never as operator objects — whereas a `null` (or `undefined`) value
makes the compiler throw a `TypeError` at the `.length` read before
any clause is emitted. -/
theorem buildQueryComponents_scalar_detection :
    (∀ (sm : List (String × String)) (name column : String) (v lv : JSVal),
        typeEntryFalsy (sm.lookup column) = false →
        jsLengthProp v = .ok lv →
        (jsTruthy lv = true ∨ jsIsNaN v = false ∨ isUuid v = true) →
        buildQueryComponents sm name [(column, v)]
          = .ok ⟨column ++ "=?", [v], [column]⟩)
    ∧ (∀ (sm : List (String × String)) (name column : String),
        typeEntryFalsy (sm.lookup column) = false →
        buildQueryComponents sm name [(column, JSVal.vNull)]
          = .error "TypeError: Cannot read property of null")
    ∧ jsLengthProp (.vStr "") = .ok (.vNum 0) ∧ jsTruthy (JSVal.vNum 0) = false
    ∧ jsIsNaN (.vStr "") = false
    ∧ jsLengthProp (.vArr []) = .ok (.vNum 0) ∧ jsIsNaN (.vArr []) = false := by
  refine ⟨?_, ?_, rfl, rfl, rfl, rfl, rfl⟩
  · intro sm name column v lv hcol hlen hv
    have hb : (jsTruthy lv || !jsIsNaN v || isUuid v) = true := by
      rcases hv with h | h | h <;> simp [h]
    have hl : List.lookup column [(column, v)] = some v := by simp [List.lookup]
    unfold buildQueryComponents
    simp only [qualifyQueryColumns, hcol, Bool.false_eq_true, if_false, bindExcept_ok,
      pureExcept_eq, List.foldlM_cons, List.foldlM_nil, hl, Option.getD_some]
    unfold queryValueStep
    rw [hlen]
    dsimp only
    rw [if_pos hb]
    simp only [List.nil_append, bindExcept_ok, pureExcept_eq]
    rfl
  · intro sm name column hcol
    have hl : List.lookup column [(column, JSVal.vNull)] = some JSVal.vNull := by
      simp [List.lookup]
    unfold buildQueryComponents
    simp only [qualifyQueryColumns, hcol, Bool.false_eq_true, if_false, bindExcept_ok,
      pureExcept_eq, List.foldlM_cons, List.foldlM_nil, hl, Option.getD_some]
    rfl

/-- C10 witness: on a concrete one-column schema the empty string and
the empty array compile as scalar equality, and a `null` query value
throws the `TypeError`. -/
theorem buildQueryComponents_scalar_detection_witness :
    buildQueryComponents [("username", "text")] "test" [("username", .vStr "")]
      = .ok ⟨"username=?", [.vStr ""], ["username"]⟩
    ∧ buildQueryComponents [("username", "text")] "test" [("username", .vArr [])]
      = .ok ⟨"username=?", [.vArr []], ["username"]⟩
    ∧ buildQueryComponents [("username", "text")] "test" [("username", JSVal.vNull)]
      = .error "TypeError: Cannot read property of null" :=
  ⟨buildQueryComponents_scalar_detection.1 [("username", "text")] "test" "username"
      (.vStr "") (.vNum 0) rfl rfl (Or.inr (Or.inl rfl)),
   buildQueryComponents_scalar_detection.1 [("username", "text")] "test" "username"
      (.vArr []) (.vNum 0) rfl rfl (Or.inr (Or.inl rfl)),
   buildQueryComponents_scalar_detection.2.1 [("username", "text")] "test" "username" rfl⟩

/-- C3: the primary-key clause builder returns `PRIMARY KEY (a, b, c)`
for the flat list `['a','b','c']`, `PRIMARY KEY ((a, b), c)` for the
composite form `[['a','b'],'c']`, and `PRIMARY KEY ((a, b))` for
`[['a','b']]` with no clustering columns, preserving declared column
order with no reordering or deduplication. -/
theorem createPartitionKeyQuery_shapes :
    createPartitionKeyQuery [.col "a", .col "b", .col "c"] = "PRIMARY KEY (a, b, c)"
    ∧ createPartitionKeyQuery [.group ["a", "b"], .col "c"] = "PRIMARY KEY ((a, b), c)"
    ∧ createPartitionKeyQuery [.group ["a", "b"]] = "PRIMARY KEY ((a, b))" :=
  ⟨rfl, rfl, rfl⟩

/-! ### Schema view qualification and ColumnFamily.createView

`Schema.qualifyView` / `Schema._qualifyPrimaryKeys`
(src/unnamed/part_014 lines 142-198) and `ColumnFamily.createView`
(src/lib/column-family.js lines 262-322). -/

/-- A materialized-view configuration object: `select`, `primaryKeys`
and `orderBy` are each optional (`none` = absent/`undefined`). -/
structure ViewConfig where
  select : Option (List String)
  primaryKeys : Option (List PKElem)
  orderBy : Option (List (String × String))
deriving Repr

/-- Strict-equality (`===`) comparison of primary-key declaration
elements as used by `Array.prototype.indexOf`: strings compare by
value, arrays by reference — and the declaration lists under
comparison never hold two references to one array, so distinct group
elements are never `===`-equal. -/
def pkElemEqRef : PKElem → PKElem → Bool
  | .col a, .col b => a == b
  | _, _ => false

/-- The flattening both `_qualifyPrimaryKeys` (part_014 lines 189-191)
and `createView` (column-family.js lines 279-284) apply:
`Array.isArray(pk[0]) ? pk[0].concat(pk.slice(1)) : pk.slice(0)` —
only a group in first position is spread. -/
def flattenFirst : List PKElem → List PKElem
  | .group g :: rest => g.map PKElem.col ++ rest
  | l => l

/-- `Schema._qualifyPrimaryKeys`: flattens a composite first element,
then requires every entry to name a declared column (a leftover nested
group coerces to its comma-joined string, which is never declared). -/
def qualifyPrimaryKeys (model : List (String × String)) (pks : List PKElem) :
    Except String Unit :=
  (flattenFirst pks).forM (fun e =>
    if typeEntryFalsy (model.lookup (pkElemToString e)) then
      .error ("Invalid Primary Key, column not "
        ++ "found in schema model; @key: " ++ pkElemToString e)
    else .ok ())

/-- `Schema.qualifyView` (part_014 lines 142-178): requires `select`
or `primaryKeys`, then checks every column referenced by `select`,
`primaryKeys` and `orderBy` against the schema model.  (The `orderBy`
error message names the "primaryKeys array", exactly as in the
source.) -/
def qualifyView (model : List (String × String)) (viewName : String)
    (cfg : ViewConfig) : Except String Bool := do
  if cfg.select.isNone ∧ cfg.primaryKeys.isNone then
    throw ("Views must specify at least a \"primaryKeys\" "
      ++ "property to create from table; view: " ++ viewName)
  match cfg.select with
  | some cols =>
    cols.forM (fun column =>
      if typeEntryFalsy (model.lookup column) then
        .error ("Could not add materialized view, undefined "
          ++ "column in select array; view: " ++ viewName ++ ", column: " ++ column)
      else .ok ())
  | none => pure ()
  match cfg.primaryKeys with
  | some pks => qualifyPrimaryKeys model pks
  | none => pure ()
  match cfg.orderBy with
  | some obs =>
    obs.forM (fun p =>
      if typeEntryFalsy (model.lookup p.1) then
        .error ("Could not add materialized view, undefined "
          ++ "column in primaryKeys array; view: " ++ viewName ++ ", column: " ++ p.1)
      else .ok ())
  | none => pure ()
  pure true

/-- The handle stored in `model.views[viewName]` (a
`Model.MaterializedView`; only the fields the claims consult are
kept). -/
structure MVHandle where
  name : String
  qualifiedName : String
deriving Repr, DecidableEq

/-- The primary-key mixin of `createView` (column-family.js lines
278-290): iterate the flattened base-table keys; any key not found
(by `indexOf` on the flat list) is pushed onto both the view's
primary-key list and the flat tracking list.  Returns the pair
(mutated `view.primaryKeys`, flat `primaryKeys` list). -/
def mixinStep (acc : List PKElem × List PKElem) (key : PKElem) :
    List PKElem × List PKElem :=
  if acc.2.any (pkElemEqRef key) then acc
  else (acc.1 ++ [key], acc.2 ++ [key])

/-- The full mixin loop of `createView` over the flattened base-table
keys, starting from the view's own (declaration, flattened) key
lists. -/
def mixinKeys (modelPKs viewPKs : List PKElem) : List PKElem × List PKElem :=
  (flattenFirst modelPKs).foldl mixinStep (viewPKs, flattenFirst viewPKs)

/-- `filter(arrayUnique)`: keep the first occurrence of each element
under `===` comparison. -/
def dedupeFirst (l : List PKElem) : List PKElem :=
  l.foldl (fun acc e => if acc.any (pkElemEqRef e) then acc else acc ++ [e]) []

/-- The ` WITH CLUSTERING ORDER BY (...)` suffix: the source passes
the mapped array straight to a `%s` format mark, which joins the
entries with bare commas. -/
def orderByClause : Option (List (String × String)) → String
  | none => ""
  | some obs =>
    " WITH CLUSTERING ORDER BY ("
      ++ String.intercalate "," (obs.map (fun p => p.1 ++ " " ++ p.2)) ++ ")"

/-- `ColumnFamily.createView` (column-family.js lines 262-322): fails
if the view name is already registered; otherwise registers the
materialized-view handle, then (unless `noQualify`) validates the
config, then mixes the base table's primary keys into the view's
key list and assembles the `CREATE MATERIALIZED VIEW` statement.
Returns the updated views map together with either an error or the
pair (effective view primary keys, statement text). -/
def createView (keyspace modelName qualifiedName : String)
    (modelPKs : List PKElem) (schemaModel : List (String × String))
    (views : List (String × MVHandle)) (viewName : String)
    (cfg : ViewConfig) (noQualify : Bool) :
    List (String × MVHandle) × Except String (List PKElem × String) :=
  if (views.lookup viewName).isSome then
    (views, .error ("View already exists! " ++ modelName ++ " - " ++ viewName))
  else if viewName = "" then
    -- the Model constructor rejects an empty name while the
    -- MaterializedView handle is being built, before it is stored
    (views, .error ("Model expects parameter 2 to be of type \"string\": @\"" ++ viewName ++ "\""))
  else
    let handle : MVHandle := ⟨viewName, qualifiedName ++ "__" ++ viewName.toLower⟩
    let newViews := views ++ [(viewName, handle)]
    match (if noQualify then .ok true else qualifyView schemaModel viewName cfg) with
    | .error e => (newViews, .error e)
    | .ok _ =>
      match cfg.primaryKeys with
      | none => (newViews, .error "TypeError: Cannot read property 0 of undefined")
      | some vpk =>
        let mixed := mixinKeys modelPKs vpk
        let whereText := String.intercalate " AND "
          (mixed.2.map (fun e => pkElemToString e ++ " IS NOT NULL"))
        let selectText :=
          match cfg.select with
          | some s => String.intercalate ", "
              ((dedupeFirst (s.map PKElem.col ++ mixed.1)).map pkElemToString)
          | none => String.intercalate ", " (mixed.1.map pkElemToString)
        let query := "CREATE MATERIALIZED VIEW IF NOT EXISTS " ++ keyspace ++ "."
          ++ handle.qualifiedName ++ " AS SELECT " ++ selectText ++ " FROM " ++ modelName
          ++ " WHERE " ++ whereText ++ " " ++ createPartitionKeyQuery mixed.1
          ++ orderByClause cfg.orderBy
        (newViews, .ok (mixed.1, query))

theorem pkElemEqRef_eq {a b : PKElem} (h : pkElemEqRef a b = true) : a = b := by
  cases a <;> cases b <;> simp_all [pkElemEqRef]

theorem flattenFirst_cols (l : List String) :
    flattenFirst (l.map PKElem.col) = l.map PKElem.col := by
  cases l <;> rfl

theorem mixin_fold_append :
    ∀ (ks : List PKElem) (a b : List PKElem),
      ∃ app, List.foldl mixinStep (a, b) ks = (a ++ app, b ++ app) := by
  intro ks
  induction ks with
  | nil => intro a b; exact ⟨[], by simp⟩
  | cons k ks ih =>
    intro a b
    simp only [List.foldl_cons]
    by_cases h : b.any (pkElemEqRef k) = true
    · rw [show mixinStep (a, b) k = (a, b) by simp [mixinStep, h]]
      exact ih a b
    · rw [show mixinStep (a, b) k = (a ++ [k], b ++ [k]) by simp [mixinStep, h]]
      obtain ⟨app, happ⟩ := ih (a ++ [k]) (b ++ [k])
      exact ⟨k :: app, by simp [happ]⟩

theorem mixin_fold_mem :
    ∀ (ks : List PKElem) (a b : List PKElem) (e : PKElem),
      e ∈ ks → e ∈ (List.foldl mixinStep (a, b) ks).2 := by
  intro ks
  induction ks with
  | nil => intro a b e he; cases he
  | cons k ks ih =>
    intro a b e he
    simp only [List.foldl_cons]
    rcases List.mem_cons.mp he with rfl | hmem
    · by_cases h : b.any (pkElemEqRef e) = true
      · obtain ⟨x, hx, hex⟩ := List.any_eq_true.mp h
        have hxe : e = x := pkElemEqRef_eq hex
        subst hxe
        rw [show mixinStep (a, b) e = (a, b) by simp [mixinStep, h]]
        obtain ⟨app, happ⟩ := mixin_fold_append ks a b
        rw [happ]
        exact List.mem_append_left _ hx
      · rw [show mixinStep (a, b) e = (a ++ [e], b ++ [e]) by simp [mixinStep, h]]
        obtain ⟨app, happ⟩ := mixin_fold_append ks (a ++ [e]) (b ++ [e])
        rw [happ]
        exact List.mem_append_left _ (by simp)
    · by_cases h : b.any (pkElemEqRef k) = true
      · rw [show mixinStep (a, b) k = (a, b) by simp [mixinStep, h]]
        exact ih a b e hmem
      · rw [show mixinStep (a, b) k = (a ++ [k], b ++ [k]) by simp [mixinStep, h]]
        exact ih (a ++ [k]) (b ++ [k]) e hmem

theorem mixin_fold_cols :
    ∀ (ks : List String) (a b : List PKElem), ks.Nodup →
      List.foldl mixinStep (a, b) (ks.map PKElem.col)
        = (a ++ (ks.filter (fun k => !(b.any (pkElemEqRef (.col k))))).map PKElem.col,
           b ++ (ks.filter (fun k => !(b.any (pkElemEqRef (.col k))))).map PKElem.col) := by
  intro ks
  induction ks with
  | nil => intro a b _; simp
  | cons k ks ih =>
    intro a b hnd
    obtain ⟨hk, hnd2⟩ := List.nodup_cons.mp hnd
    simp only [List.map_cons, List.foldl_cons]
    by_cases h : b.any (pkElemEqRef (.col k)) = true
    · rw [show mixinStep (a, b) (.col k) = (a, b) by simp [mixinStep, h]]
      rw [ih a b hnd2]
      simp [List.filter_cons, h]
    · rw [show mixinStep (a, b) (PKElem.col k)
          = (a ++ [PKElem.col k], b ++ [PKElem.col k]) by simp [mixinStep, h]]
      rw [ih (a ++ [PKElem.col k]) (b ++ [PKElem.col k]) hnd2]
      have hfil : ks.filter (fun x => !((b ++ [PKElem.col k]).any (pkElemEqRef (.col x))))
          = ks.filter (fun x => !(b.any (pkElemEqRef (.col x)))) := by
        apply List.filter_congr
        intro x hx
        have hxk : x ≠ k := fun hxy => hk (hxy ▸ hx)
        simp [List.any_append, pkElemEqRef, hxk]
      rw [hfil]
      simp [List.filter_cons, h, List.append_assoc]

/-- C2: `createView` appends to the view's primary-key list each
base-table primary-key column not already present, in the base table's
declaration order; a base table with primary keys
`['username','age']` and a view declared with `primaryKeys: ['name']`
ends up with effective view primary keys `['name','username','age']`;
for flat key lists the result is exactly the view's keys followed by
the base keys not already among them; and in general the mixin only
appends, and every flattened base key ends up among the view's
effective (flat) keys — the view's key set is a superset of the base
table's. -/
theorem createView_key_inheritance :
    ((createView "ks" "tbl" "tbl" [.col "username", .col "age"] demoSchemaModel []
        "byName" ⟨none, some [.col "name"], none⟩ false).2.map Prod.fst
      = .ok [.col "name", .col "username", .col "age"])
    ∧ (∀ (base view : List String), base.Nodup →
        (mixinKeys (base.map .col) (view.map .col)).1
          = (view ++ base.filter (fun k => !(view.contains k))).map PKElem.col)
    ∧ (∀ (modelPKs viewPKs : List PKElem),
        (∃ appended, (mixinKeys modelPKs viewPKs).1 = viewPKs ++ appended
          ∧ (mixinKeys modelPKs viewPKs).2 = flattenFirst viewPKs ++ appended)
        ∧ ∀ e ∈ flattenFirst modelPKs, e ∈ (mixinKeys modelPKs viewPKs).2) := by
  refine ⟨rfl, ?_, ?_⟩
  · intro base view hnd
    unfold mixinKeys
    rw [flattenFirst_cols base, flattenFirst_cols view,
      mixin_fold_cols base (view.map PKElem.col) (view.map PKElem.col) hnd]
    have hpred : base.filter
        (fun k => !((view.map PKElem.col).any (pkElemEqRef (.col k))))
        = base.filter (fun k => !(view.contains k)) := by
      apply List.filter_congr
      intro x _
      have : (view.map PKElem.col).any (pkElemEqRef (.col x)) = view.contains x := by
        induction view with
        | nil => rfl
        | cons v vs ihv =>
          by_cases hxv : x = v
          · simp [pkElemEqRef, List.contains_cons, hxv]
          · simp [pkElemEqRef, List.contains_cons, ihv, hxv]
      rw [this]
    rw [hpred]
    simp
  · intro modelPKs viewPKs
    constructor
    · obtain ⟨app, happ⟩ :=
        mixin_fold_append (flattenFirst modelPKs) viewPKs (flattenFirst viewPKs)
      exact ⟨app, by unfold mixinKeys; rw [happ], by unfold mixinKeys; rw [happ]⟩
    · intro e he
      unfold mixinKeys
      exact mixin_fold_mem (flattenFirst modelPKs) viewPKs (flattenFirst viewPKs) e he

/-- C2 witness: the flat-list clause of `createView_key_inheritance`
applied at base keys `['username','age']` and view keys `['name']`. -/
theorem createView_key_inheritance_witness :
    (mixinKeys (["username", "age"].map PKElem.col) (["name"].map PKElem.col)).1
      = (["name"] ++ ["username", "age"].filter (fun k => !(["name"].contains k))).map PKElem.col :=
  createView_key_inheritance.2.1 ["username", "age"] ["name"] (by decide)

theorem lookup_append_right {β : Type} (l1 l2 : List (String × β)) (a : String)
    (h : l1.lookup a = none) : (l1 ++ l2).lookup a = l2.lookup a := by
  induction l1 with
  | nil => rfl
  | cons p l1 ih =>
    simp only [List.lookup, List.cons_append] at h ⊢
    cases hb : (a == p.1) with
    | true => rw [hb] at h; simp at h
    | false => rw [hb] at h; exact ih h

/-- C9: `createView` registers the view handle in the views map before
validating the view config, so whenever `qualifyView` rejects the
config the views map nevertheless retains an entry under that name,
the call surfaces the validation error, and every subsequent
`createView` under the same name — any config, qualified or not —
fails with the view-already-exists error. -/
theorem createView_registers_before_validation :
    ∀ (ks modelName qualName : String) (modelPKs : List PKElem)
      (schemaModel : List (String × String)) (views : List (String × MVHandle))
      (viewName : String) (cfg : ViewConfig) (e : String),
      views.lookup viewName = none → viewName ≠ "" →
      qualifyView schemaModel viewName cfg = .error e →
      ((createView ks modelName qualName modelPKs schemaModel views viewName cfg
          false).1.lookup viewName).isSome = true
      ∧ (createView ks modelName qualName modelPKs schemaModel views viewName cfg
          false).2 = .error e
      ∧ ∀ (cfg2 : ViewConfig) (noq2 : Bool),
          (createView ks modelName qualName modelPKs schemaModel
            (createView ks modelName qualName modelPKs schemaModel views viewName cfg
              false).1
            viewName cfg2 noq2).2
          = .error ("View already exists! " ++ modelName ++ " - " ++ viewName) := by
  intro ks mn qn mpk sm views vn cfg e h1 h2 hq
  have hreg : createView ks mn qn mpk sm views vn cfg false
      = (views ++ [(vn, ⟨vn, qn ++ "__" ++ vn.toLower⟩)], .error e) := by
    unfold createView
    rw [h1, if_neg (by simp), if_neg h2]
    simp only [Bool.false_eq_true, if_false, hq]
  have hlook : ((views ++ [(vn, (⟨vn, qn ++ "__" ++ vn.toLower⟩ : MVHandle))]).lookup vn)
      = some ⟨vn, qn ++ "__" ++ vn.toLower⟩ := by
    rw [lookup_append_right views _ vn h1]
    simp [List.lookup]
  refine ⟨?_, ?_, ?_⟩
  · rw [hreg]; rw [hlook]; rfl
  · rw [hreg]
  · intro cfg2 noq2
    rw [hreg]
    unfold createView
    rw [hlook]
    rfl

/-- C9 witness: on the demo schema, a view config whose `select` names
the undeclared column `foo` fails validation, yet the handle stays
registered and a retry with a corrected config is rejected. -/
theorem createView_registers_before_validation_witness :
    ((createView "ks" "tbl" "tbl" [.col "username"] demoSchemaModel [] "byName"
        ⟨some ["foo"], some [.col "name"], none⟩ false).1.lookup "byName").isSome = true
    ∧ (createView "ks" "tbl" "tbl" [.col "username"] demoSchemaModel [] "byName"
        ⟨some ["foo"], some [.col "name"], none⟩ false).2
      = .error ("Could not add materialized view, undefined "
          ++ "column in select array; view: byName, column: foo")
    ∧ (createView "ks" "tbl" "tbl" [.col "username"] demoSchemaModel
        (createView "ks" "tbl" "tbl" [.col "username"] demoSchemaModel [] "byName"
          ⟨some ["foo"], some [.col "name"], none⟩ false).1
        "byName" ⟨none, some [.col "name"], none⟩ false).2
      = .error "View already exists! tbl - byName" :=
  have t := createView_registers_before_validation "ks" "tbl" "tbl" [.col "username"]
    demoSchemaModel [] "byName" ⟨some ["foo"], some [.col "name"], none⟩
    ("Could not add materialized view, undefined "
      ++ "column in select array; view: byName, column: foo")
    rfl (by decide) rfl
  ⟨t.1, t.2.1, t.2.2 ⟨none, some [.col "name"], none⟩ false⟩

/-! ### Type catalog and schema column preparation

`Schema.qualifyType` / `Schema._prepareColumns`
(src/unnamed/part_014 lines 62-119).  The catalog is the driver's
`types.dataTypes` object: lowercase type names mapped to numeric
codes (`custom` carries code `0`).  `qualifyType` tests the truthiness
of a plain property lookup — no case folding is applied to the type
name. -/

/-- The driver's `types.dataTypes` name → code mapping. -/
def dataTypes : List (String × Nat) :=
  [("custom", 0x0000), ("ascii", 0x0001), ("bigint", 0x0002), ("blob", 0x0003),
   ("boolean", 0x0004), ("counter", 0x0005), ("decimal", 0x0006), ("double", 0x0007),
   ("float", 0x0008), ("int", 0x0009), ("text", 0x000a), ("timestamp", 0x000b),
   ("uuid", 0x000c), ("varchar", 0x000d), ("varint", 0x000e), ("timeuuid", 0x000f),
   ("inet", 0x0010), ("date", 0x0011), ("time", 0x0012), ("smallint", 0x0013),
   ("tinyint", 0x0014), ("list", 0x0020), ("map", 0x0021), ("set", 0x0022),
   ("udt", 0x0030), ("tuple", 0x0031)]

/-- Truthiness of `dataTypes[type]`: the key must be present with a
non-zero code. -/
def dataTypeTruthy (t : String) : Bool :=
  match dataTypes.lookup t with
  | some n => n ≠ 0
  | none => false

/-- `Schema.qualifyType` (part_014 lines 62-67): throws unless
`dataTypes[type]` is truthy. -/
def qualifyType (t : String) : Except String Unit :=
  if !dataTypeTruthy t then
    .error ("Cassandra data type not supported: \"" ++ t ++ "\"")
  else .ok ()

/-- A column's declared type: a scalar type-name string, or a
collection declaration object carrying its element type(s). -/
inductive TypeDecl where
  | scalar (name : String)
  | setOf (elem : String)
  | listOf (elem : String)
  | mapOf (elems : List String)
deriving Repr

/-- The per-column type handling of `Schema._prepareColumns` (part_014
lines 84-104): a non-string declaration is probed for `set`, `list`
then `map`, its element type(s) are qualified, and the collection kind
becomes the stored type, itself qualified afterwards; a string
declaration is qualified directly.  Returns the type string recorded
in `schema.model[field]`. -/
def prepareColumnType : TypeDecl → Except String String
  | .scalar s => do qualifyType s; pure s
  | .setOf e => do qualifyType e; qualifyType "set"; pure "set"
  | .listOf e => do qualifyType e; qualifyType "list"; pure "list"
  | .mapOf es => do es.forM qualifyType; qualifyType "map"; pure "map"

/-- `Schema._prepareColumns` restricted to the model map it populates:
each declared column is processed in order, synchronously propagating
the first type error.  (Required/default bookkeeping and the final
column-name sort do not affect type validation and are omitted.) -/
def prepareColumns : List (String × TypeDecl) → Except String (List (String × String))
  | [] => .ok []
  | (field, d) :: rest => do
    let t ← prepareColumnType d
    let m ← prepareColumns rest
    pure ((field, t) :: m)

/-- The `Schema` constructor (part_014 lines 39-60): validates the
`primaryKeys` option, prepares the columns (validating every type),
qualifies the primary keys and then any declared views —
all synchronously, before the constructor returns. -/
def mkSchema (columns : List (String × TypeDecl)) (primaryKeys : Option (List PKElem))
    (views : Option (List (String × ViewConfig))) :
    Except String (List (String × String)) := do
  match primaryKeys with
  | none => throw "Schema expects to have option \"primaryKeys\" of type array"
  | some pks =>
    if pks.isEmpty then
      throw "Schema expects to have option \"primaryKeys\" of type array"
    let model ← prepareColumns columns
    qualifyPrimaryKeys model pks
    match views with
    | some vs => vs.forM (fun p => do _ ← qualifyView model p.1 p.2; pure ())
    | none => pure ()
    pure model

/-- C6 counterexample: the lowercased form of `'TEXT'` is in the
supported-type catalog, yet schema construction with
`{username: 'TEXT'}` throws the unsupported-type error —
`qualifyType` looks the name up without case folding, so validation is
not case-insensitive. -/
theorem qualifyType_not_case_insensitive :
    dataTypeTruthy "text" = true
    ∧ mkSchema [("username", .scalar "TEXT")] (some [.col "username"]) none
        = .error "Cassandra data type not supported: \"TEXT\"" :=
  ⟨rfl, rfl⟩

/-- C6 (amended): scalar type validation at schema construction is
case-sensitive — exactly the names present in the supported-type
catalog (with a truthy code) are accepted — and for any type name not
accepted by the catalog lookup, including element types of
list/set/map declarations, construction throws the unsupported-type
error synchronously, at schema-construction time rather than at query
time. -/
theorem schema_type_validation :
    (∀ t : String, dataTypeTruthy t = true → qualifyType t = .ok ())
    ∧ (∀ t : String, dataTypeTruthy t = false →
        qualifyType t = .error ("Cassandra data type not supported: \"" ++ t ++ "\""))
    ∧ (∀ (field t : String) (rest : List (String × TypeDecl)) (pks : List PKElem)
        (views : Option (List (String × ViewConfig))),
        dataTypeTruthy t = false → pks.isEmpty = false →
        mkSchema ((field, .scalar t) :: rest) (some pks) views
            = .error ("Cassandra data type not supported: \"" ++ t ++ "\"")
        ∧ mkSchema ((field, .listOf t) :: rest) (some pks) views
            = .error ("Cassandra data type not supported: \"" ++ t ++ "\"")
        ∧ mkSchema ((field, .setOf t) :: rest) (some pks) views
            = .error ("Cassandra data type not supported: \"" ++ t ++ "\"")
        ∧ mkSchema ((field, .mapOf [t]) :: rest) (some pks) views
            = .error ("Cassandra data type not supported: \"" ++ t ++ "\"")) := by
  refine ⟨?_, ?_, ?_⟩
  · intro t h; simp [qualifyType, h]
  · intro t h; simp [qualifyType, h]
  · intro field t rest pks views ht hpks
    have hq : qualifyType t
        = .error ("Cassandra data type not supported: \"" ++ t ++ "\"") := by
      simp [qualifyType, ht]
    refine ⟨?_, ?_, ?_, ?_⟩ <;>
      simp [mkSchema, hpks, prepareColumns, prepareColumnType, hq, List.forM]

/-- C6 witness: the unknown type `'foo'` is rejected at construction,
both as a scalar and as a list element type. -/
theorem schema_type_validation_witness :
    dataTypeTruthy "foo" = false
    ∧ ([PKElem.col "username"] : List PKElem).isEmpty = false
    ∧ mkSchema [("username", .scalar "foo")] (some [.col "username"]) none
        = .error "Cassandra data type not supported: \"foo\""
    ∧ mkSchema [("username", .listOf "foo")] (some [.col "username"]) none
        = .error "Cassandra data type not supported: \"foo\"" :=
  have t := schema_type_validation.2.2 "username" "foo" [] [PKElem.col "username"]
    none rfl rfl
  ⟨rfl, rfl, t.1, t.2.1⟩

/-! ### Update SET compiler

`AbstractModel.update` (src/unnamed/part_002 lines 360-416) and the
`TypeMap` it dispatches on (part_002 lines 24-32): every key of the
driver's `dataTypes` object is numbered `index + 5`, then the
collection kinds are overridden to `list = 1`, `set = 2`, `map = 3`,
so a collection kind compares `< 3` / `= 3` while every scalar maps
`≥ 5`. -/

/-- Position of a name in a list, `none` when absent. -/
def nameIndex : List String → String → Option Nat
  | [], _ => none
  | n :: rest, t => if n = t then some 0 else (nameIndex rest t).map (· + 1)

/-- `TypeMap[t]`: the collection kinds map to 1/2/3; every other key
of `dataTypes` maps to its index plus 5; unknown names are
`undefined`. -/
def typeMapLookup (t : String) : Option Nat :=
  if t = "list" then some 1
  else if t = "set" then some 2
  else if t = "map" then some 3
  else (nameIndex (dataTypes.map Prod.fst) t).map (· + 5)

/-- `typeMapping < TypeMap.map` — `undefined < 3` is false in JS. -/
def tmLtMap (o : Option Nat) : Bool :=
  match o with
  | some n => n < 3
  | none => false

/-- `typeMapping === TypeMap.map`. -/
def tmEqMap (o : Option Nat) : Bool :=
  o == some 3

/-- The body of the per-column loop of `update` (part_002 lines
367-407), extending the accumulated SET-fragment and value lists:
list/set collection directives are dispatched by `$`-action, a map
column is either wholly replaced (truthy `$set`) or updated per key
as `column[?] = ?` with key then value pushed, and anything else is a
plain scalar `column=?` assignment. -/
def updateColumnStep (dm : List (String × String)) (acc : List String × List JSVal)
    (p : String × JSVal) : Except String (List String × List JSVal) :=
  let column := p.1
  let value := p.2
  let tm : Option Nat :=
    match dm.lookup column with
    | some ty => typeMapLookup ty
    | none => none
  if tmLtMap tm && !isJsArray value then
    .ok ((jsOwnFields value).foldl (fun acc2 q =>
      if q.1 = "$append" ∨ q.1 = "$add" then
        (acc2.1 ++ [column ++ " = " ++ column ++ " + ?"], acc2.2 ++ [q.2])
      else if q.1 = "$prepend" then
        (acc2.1 ++ [column ++ " = ? + " ++ column], acc2.2 ++ [q.2])
      else if q.1 = "$filter" then
        (acc2.1 ++ [column ++ " = " ++ column ++ " - ?"], acc2.2 ++ [q.2])
      else if q.1 = "$set" then
        (jsOwnFields q.2).foldl (fun acc3 r =>
          (acc3.1 ++ [column ++ "[" ++ r.1 ++ "]" ++ " = ?"], acc3.2 ++ [r.2])) acc2
      else acc2) acc)
  else if tmEqMap tm then
    match jsGet value "$set" with
    | .error e => .error e
    | .ok setv =>
      if jsTruthy setv then
        .ok (acc.1 ++ [column ++ "=?"], acc.2 ++ [setv])
      else
        .ok ((jsOwnFields value).foldl (fun acc2 q =>
          (acc2.1 ++ [column ++ "[?] = ?"], acc2.2 ++ [.vStr q.1, q.2])) acc)
  else
    .ok (acc.1 ++ [column ++ "=?"], acc.2 ++ [value])

/-- The SET-clause compilation of `update`: fold every update-object
entry through `updateColumnStep`, yielding the fragment and value
lists. -/
def updateSetComponents (dm : List (String × String))
    (uo : List (String × JSVal)) : Except String (List String × List JSVal) :=
  uo.foldlM (updateColumnStep dm) ([], [])

theorem mapKeyFold_append (column : String) :
    ∀ (fields : List (String × JSVal)) (acc : List String × List JSVal),
      fields.foldl (fun acc2 q =>
          (acc2.1 ++ [column ++ "[?] = ?"], acc2.2 ++ [.vStr q.1, q.2])) acc
        = (acc.1 ++ fields.map (fun _ => column ++ "[?] = ?"),
           acc.2 ++ fields.flatMap (fun q => [.vStr q.1, q.2])) := by
  intro fields
  induction fields with
  | nil => intro acc; simp
  | cons f rest ih =>
    intro acc
    simp only [List.foldl_cons, ih, List.map_cons, List.flatMap_cons]
    simp [List.append_assoc]

/-- C5 counterexample: for a map-typed column, the empty directive
object produces no fragment at all — it does not clear the column —
and a `null` directive throws a `TypeError` instead of clearing. -/
theorem update_map_empty_object_not_clear :
    updateSetComponents [("meta", "map")] [("meta", .vObj [])] = .ok ([], [])
    ∧ (Except.ok ([], []) : Except String (List String × List JSVal))
        ≠ .ok (["meta=?"], [JSVal.vNull])
    ∧ updateSetComponents [("meta", "map")] [("meta", .vNull)]
        = .error "TypeError: Cannot read property of null" :=
  ⟨rfl, by simp, rfl⟩

/-- C5 (amended): for a map-typed column, a `{$set: obj}` directive
with truthy `obj` compiles to the single whole-column fragment
`column=?` with `obj` pushed as one value; a directive object whose
`$set` member is absent or falsy compiles to one `column[?] = ?`
fragment per key, with that key and then its value pushed in that
order, keys in the directive object's iteration order; and an empty
directive object produces no fragment, leaving the column
untouched. -/
theorem update_map_directives :
    ∀ (dm : List (String × String)) (column : String),
      dm.lookup column = some "map" →
      (∀ v : JSVal, jsTruthy v = true →
        updateSetComponents dm [(column, .vObj [("$set", v)])]
          = .ok ([column ++ "=?"], [v]))
      ∧ (∀ fields : List (String × JSVal),
          jsTruthy ((fields.lookup "$set").getD .vUndefined) = false →
          updateSetComponents dm [(column, .vObj fields)]
            = .ok (fields.map (fun _ => column ++ "[?] = ?"),
                   fields.flatMap (fun q => [.vStr q.1, q.2])))
      ∧ updateSetComponents dm [(column, .vObj [])] = .ok ([], []) := by
  intro dm column hdm
  have htm : (match dm.lookup column with
      | some ty => typeMapLookup ty
      | none => none) = some 3 := by rw [hdm]; rfl
  refine ⟨?_, ?_, ?_⟩
  · intro v hv
    simp only [updateSetComponents, List.foldlM_cons, List.foldlM_nil,
      updateColumnStep, htm]
    simp [jsGet, jsOwnFields, hv, tmLtMap, tmEqMap]
  · intro fields hfal
    simp only [updateSetComponents, List.foldlM_cons, List.foldlM_nil,
      updateColumnStep, htm]
    have hget : jsGet (.vObj fields) "$set"
        = .ok ((fields.lookup "$set").getD .vUndefined) := by
      simp only [jsGet, jsOwnFields]
      cases fields.lookup "$set" <;> rfl
    simp only [tmLtMap, tmEqMap, isJsArray, Bool.and_false, Bool.false_and,
      Bool.if_false_left, hget, hfal]
    simp [jsOwnFields, mapKeyFold_append]
  · simp only [updateSetComponents, List.foldlM_cons, List.foldlM_nil,
      updateColumnStep, htm]
    simp [jsGet, jsOwnFields, tmLtMap, tmEqMap, jsTruthy]

/-- C5 witness: on a map column `meta`, `{$set: {a: 1}}` replaces the
whole column, and `{k1: 'x', k2: 'y'}` yields one `meta[?] = ?`
fragment per key with key-then-value value order. -/
theorem update_map_directives_witness :
    updateSetComponents [("meta", "map")] [("meta", .vObj [("$set", .vObj [("a", .vNum 1)])])]
      = .ok (["meta=?"], [.vObj [("a", .vNum 1)]])
    ∧ updateSetComponents [("meta", "map")]
        [("meta", .vObj [("k1", .vStr "x"), ("k2", .vStr "y")])]
      = .ok (["meta[?] = ?", "meta[?] = ?"],
             [.vStr "k1", .vStr "x", .vStr "k2", .vStr "y"]) :=
  have t := update_map_directives [("meta", "map")] "meta" rfl
  ⟨t.1 (.vObj [("a", .vNum 1)]) rfl,
   t.2.1 [("k1", .vStr "x"), ("k2", .vStr "y")] rfl⟩

/-! ### Delete

`AbstractModel.delete` (src/unnamed/part_002 lines 437-482) and
`getArgCount` (src/lib/utils.js lines 16-22). -/

/-- The loop of `getArgCount` viewed from the end of the argument
list: trailing falsy arguments are not counted. -/
def getArgCountAux : List JSVal → Nat
  | [] => 0
  | v :: rest => if jsTruthy v then rest.length + 1 else getArgCountAux rest

/-- `getArgCount(arguments)`: the index after the last truthy
argument. -/
def getArgCount (args : List JSVal) : Nat :=
  getArgCountAux args.reverse

/-- JS string coercion of a scalar value (collection entries are
handled by `jsCoerceString`). -/
def jsScalarString : JSVal → String
  | .vStr s => s
  | .vNum n => toString n
  | .vBool b => cond b "true" "false"
  | .vNull => "null"
  | .vUndefined => "undefined"
  | .vUuid h => h
  | .vFun n _ => n
  | .vObj _ => "[object Object]"
  | .vArr _ => ""

/-- JS string coercion as used on delete indices: an array joins its
elements with commas (one level — the library only coerces scalar
indices and flat arrays here), anything else coerces as a scalar. -/
def jsCoerceString : JSVal → String
  | .vArr l => String.intercalate "," (l.map jsScalarString)
  | v => jsScalarString v

/-- Elements of a JS array value. -/
def jsArrElems : JSVal → List JSVal
  | .vArr l => l
  | _ => []

/-- `AbstractModel.delete`: resolves the callback by argument count
(two effective arguments shift the callback into the `deleteObject`
position), throws `Callback must be a function!` when the resolved
callback is not a function, and only past that check compiles the
query components and assembles the `DELETE` statement with its
positional values. -/
def jsDelete (sm : List (String × String)) (keyspace modelName : String)
    (args : List JSVal) : Except String (String × List JSVal) :=
  let argc := getArgCount args
  let deleteObject0 := args.getD 1 .vUndefined
  let callback0 := args.getD 2 .vUndefined
  let deleteObject := if argc = 2 then JSVal.vNull else deleteObject0
  let callback := if argc = 2 then deleteObject0 else callback0
  if !isJsFunction callback then
    .error "Callback must be a function!"
  else do
    let comps ← buildQueryComponents sm modelName (jsOwnFields (args.getD 0 .vUndefined))
    let unsetAcc := (jsOwnFields deleteObject).foldl
      (fun (acc : List String × List JSVal) q =>
        let column := q.1
        -- `if (!type) continue` skips entries with no type mapping
        if typeEntryFalsy (sm.lookup column) then acc
        else
          let tm := typeMapLookup ((sm.lookup column).getD "")
          let value := q.2
          if tm == some 1 && isJsArray value then
            (acc.1 ++ (jsArrElems value).map
              (fun idx => column ++ "[" ++ jsCoerceString idx ++ "]"), acc.2)
          else if tm == some 3 && isJsArray value then
            (acc.1 ++ (jsArrElems value).map (fun _ => column ++ "[?]"),
             acc.2 ++ jsArrElems value)
          else
            (acc.1 ++ [column], acc.2)) ([], [])
    let head := "DELETE "
      ++ (if unsetAcc.1.length ≠ 0 then String.intercalate "," unsetAcc.1 ++ " " else "")
      ++ "FROM " ++ keyspace ++ "." ++ modelName
    let withTs :=
      if jsTruthy deleteObject then
        match jsGet deleteObject "$usingTimestamp" with
        | .ok ts => if jsTruthy ts then head ++ " USING TIMESTAMP " ++ jsCoerceString ts else head
        | .error _ => head
      else head
    pure (withTs ++ " WHERE " ++ comps.whereText, unsetAcc.2 ++ comps.values)

theorem falsy_not_function {v : JSVal} (h : jsTruthy v = false) :
    isJsFunction v = false := by
  cases v <;> simp_all [jsTruthy, isJsFunction]

/-- C7: every invocation of `delete` with at most the three declared
arguments whose effective trailing argument (after discounting
trailing falsy arguments, as `getArgCount` does) is not a function
fails synchronously with the missing-callback error — for every
schema, keyspace, table and query object, so before any statement
text is produced or handed to the executor. -/
theorem delete_requires_callback :
    ∀ (sm : List (String × String)) (keyspace modelName : String)
      (args : List JSVal),
      args.length ≤ 3 →
      isJsFunction (args.getD (getArgCount args - 1) .vUndefined) = false →
      jsDelete sm keyspace modelName args = .error "Callback must be a function!" := by
  intro sm ks mn args hlen hcb
  match args with
  | [] => rfl
  | [a] =>
    by_cases ha : jsTruthy a = true <;>
      simp_all [jsDelete, getArgCount, getArgCountAux, isJsFunction]
  | [a, b] =>
    by_cases hb : jsTruthy b = true
    · simp_all [jsDelete, getArgCount, getArgCountAux]
    · by_cases ha : jsTruthy a = true <;>
        simp_all [jsDelete, getArgCount, getArgCountAux, isJsFunction]
  | [a, b, c] =>
    by_cases hc : jsTruthy c = true
    · simp_all [jsDelete, getArgCount, getArgCountAux]
    · rw [Bool.not_eq_true] at hc
      have hcf := falsy_not_function hc
      by_cases hb : jsTruthy b = true
      · simp_all [jsDelete, getArgCount, getArgCountAux]
      · by_cases ha : jsTruthy a = true <;>
          simp_all [jsDelete, getArgCount, getArgCountAux]
  | _ :: _ :: _ :: _ :: _ => simp at hlen

/-- C7 witness: `delete({username: 'foo'})` — a one-argument call —
fails with the missing-callback error on the demo schema. -/
theorem delete_requires_callback_witness :
    jsDelete demoSchemaModel "ks" "tbl" [.vObj [("username", .vStr "foo")]]
      = .error "Callback must be a function!" :=
  delete_requires_callback demoSchemaModel "ks" "tbl"
    [.vObj [("username", .vStr "foo")]] (by decide) rfl

/-! ### find / findOne result shaping

`AbstractModel.find` (src/unnamed/part_002 lines 310-340) and
`AbstractModel.findOne` (lines 488-510).  `find` hands the executor's
row list to its callback as `null` when empty, as an array of
`new Factory(row, true)` instances by default, or as re-keyed raw rows
when `options.raw`; `findOne` forces `limit = 1` and shifts a
delivered array down to its first element. -/

/-- A raw driver row. -/
def RawRow : Type := List (String × JSVal)

/-- A `new Factory(row, true)` instance (hydration bypassing
defaults/required checks). -/
structure HydratedRow where
  data : List (String × JSVal)
deriving Repr

/-- Options consulted by `find`/`findOne`. -/
structure FindOptions where
  limit : Option Nat := none
  allowFiltering : Bool := false
  raw : Bool := false
  findOneFlag : Bool := false
deriving Repr

/-- The option mutation performed by `findOne` (part_002 lines
501-503): `options = options || {}`, then `limit = 1` and the
`__$$findOne` marker are forced. -/
def findOneOptions (o : Option FindOptions) : FindOptions :=
  { o.getD {} with limit := some 1, findOneFlag := true }

/-- What `find` passes to its callback. -/
inductive FindDelivery where
  | nullRes
  | hydrated (rows : List HydratedRow)
  | raw (rows : List (List (String × JSVal)))
deriving Repr

/-- The raw-mode re-keying of one row (part_002 lines 328-335): for
each key of the first row, a key differing from its `dataMap` image is
deleted and re-added under the mapped name. -/
def remapRow (dataMap : List (String × String)) (rowKeys : List String)
    (row : List (String × JSVal)) : List (String × JSVal) :=
  rowKeys.foldl (fun r key =>
    let mapping := (dataMap.lookup key).getD "undefined"
    if key ≠ mapping then
      (r.filter (fun p => p.1 ≠ key)) ++ [(mapping, (row.lookup key).getD .vUndefined)]
    else r) row

/-- The execute-callback body of `find` (part_002 lines 310-339):
an empty row list becomes `null`; otherwise the rows are hydrated
through the model's Factory, unless `options.raw`, in which case they
are re-keyed through the schema's `dataMap`. -/
def findDeliver (raw : Bool) (dataMap : List (String × String))
    (rows : List (List (String × JSVal))) : FindDelivery :=
  if rows.length = 0 then .nullRes
  else if !raw then .hydrated (rows.map HydratedRow.mk)
  else .raw (rows.map (remapRow dataMap (((rows.headD []).map Prod.fst))))

/-- What `findOne` passes to the caller's callback. -/
inductive FindOneDelivery where
  | nullRes
  | objRes (row : HydratedRow)
  | rawObjRes (row : List (String × JSVal))
  | undefinedRes
deriving Repr

/-- The wrapper callback of `findOne` (part_002 lines 504-509): an
array result is `shift`ed to its first element (`undefined` when the
array is empty), anything else passes through. -/
def findOneWrap : FindDelivery → FindOneDelivery
  | .nullRes => .nullRes
  | .hydrated [] => .undefinedRes
  | .hydrated (r :: _) => .objRes r
  | .raw [] => .undefinedRes
  | .raw (r :: _) => .rawObjRes r

/-- C4: `findOne` forces `limit = 1` on the options it passes to
`find`, and the composition of `find`'s result shaping with
`findOne`'s wrapper delivers exactly `null` (not an empty array, not
`undefined`) when zero rows match and a single hydrated row object —
never an array — when a row matches; in general the delivered value is
always `null` or a single hydrated object. -/
theorem findOne_contract :
    (∀ o : Option FindOptions, (findOneOptions o).limit = some 1
      ∧ (findOneOptions o).findOneFlag = true)
    ∧ (∀ dataMap : List (String × String),
        findOneWrap (findDeliver false dataMap []) = .nullRes)
    ∧ (∀ (dataMap : List (String × String)) (r : List (String × JSVal)),
        findOneWrap (findDeliver false dataMap [r]) = .objRes ⟨r⟩)
    ∧ (∀ (dataMap : List (String × String)) (rows : List (List (String × JSVal))),
        findOneWrap (findDeliver false dataMap rows) = .nullRes
        ∨ ∃ r, findOneWrap (findDeliver false dataMap rows) = .objRes r) := by
  refine ⟨fun o => ⟨rfl, rfl⟩, fun _ => rfl, fun _ _ => rfl, ?_⟩
  intro dataMap rows
  cases rows with
  | nil => exact Or.inl rfl
  | cons r rest => exact Or.inr ⟨⟨r⟩, rfl⟩

/-! ### Pre-connection DDL queue

`Cassandra.connect` (src/unnamed/part_008 lines 96-127) and the
enqueue-or-execute pattern of the DDL emitters
(src/lib/column-family.js lines 141-146): before the driver confirms
connectivity every generated statement is pushed onto the connection's
single `queue`; on connect the queue is `splice(0)`-emptied and each
deferred statement runs once, sequentially, in insertion order
(`async.eachSeries`), after which `connected` is set. -/

/-- The connection state: the `connected` flag, the pending `queue`,
and the ordered log of statements handed to `driver.execute`. -/
structure ConnState where
  connected : Bool
  queue : List String
  executed : List String
deriving Repr, DecidableEq

/-- One DDL emission (column-family.js lines 141-146): execute
immediately when connected, else push onto the queue. -/
def runDDL (st : ConnState) (stmt : String) : ConnState :=
  if st.connected then { st with executed := st.executed ++ [stmt] }
  else { st with queue := st.queue ++ [stmt] }

/-- A sequence of DDL emissions in program order. -/
def runDDLs (st : ConnState) (stmts : List String) : ConnState :=
  stmts.foldl runDDL st

/-- The successful `connect` path (part_008 lines 113-124):
`queue.splice(0)` empties the queue, the removed statements execute
once each in insertion order, then `connected` is set. -/
def connectDrain (st : ConnState) : ConnState :=
  { connected := true, queue := [], executed := st.executed ++ st.queue }

theorem runDDLs_not_connected (stmts : List String) :
    ∀ st : ConnState, st.connected = false →
      runDDLs st stmts
        = { connected := false, queue := st.queue ++ stmts, executed := st.executed } := by
  induction stmts with
  | nil => intro st h; cases st; simp_all [runDDLs]
  | cons s rest ih =>
    intro st h
    have hstep : runDDL st s
        = { connected := false, queue := st.queue ++ [s], executed := st.executed } := by
      cases st; simp_all [runDDL]
    simp only [runDDLs, List.foldl_cons]
    rw [show List.foldl runDDL (runDDL st s) rest = runDDLs (runDDL st s) rest from rfl,
      hstep, ih _ rfl]
    simp

/-- C8: every DDL statement generated while the connection is not yet
established is appended to the connection's single ordered queue (the
executed log untouched), and on connect the queue is drained exactly
once in insertion (FIFO) order — the executed log extends by exactly
the queued statements in order, the queue empties, and a repeated
drain executes nothing further. -/
theorem ddl_queue_fifo :
    ∀ (st : ConnState) (stmts : List String), st.connected = false →
      (runDDLs st stmts).queue = st.queue ++ stmts
      ∧ (runDDLs st stmts).executed = st.executed
      ∧ (connectDrain (runDDLs st stmts)).executed = st.executed ++ st.queue ++ stmts
      ∧ (connectDrain (runDDLs st stmts)).queue = []
      ∧ (connectDrain (runDDLs st stmts)).connected = true
      ∧ connectDrain (connectDrain (runDDLs st stmts))
          = connectDrain (runDDLs st stmts) := by
  intro st stmts h
  rw [runDDLs_not_connected stmts st h]
  refine ⟨rfl, rfl, by simp [connectDrain, List.append_assoc], rfl, rfl, by simp [connectDrain]⟩

/-- C8 witness: two table-creation statements queued on a fresh
unconnected state drain in order on connect. -/
theorem ddl_queue_fifo_witness :
    (runDDLs ⟨false, [], []⟩ ["CREATE TABLE a", "CREATE TABLE b"]).queue
        = [] ++ ["CREATE TABLE a", "CREATE TABLE b"]
    ∧ (runDDLs ⟨false, [], []⟩ ["CREATE TABLE a", "CREATE TABLE b"]).executed = []
    ∧ (connectDrain (runDDLs ⟨false, [], []⟩ ["CREATE TABLE a", "CREATE TABLE b"])).executed
        = [] ++ [] ++ ["CREATE TABLE a", "CREATE TABLE b"]
    ∧ (connectDrain (runDDLs ⟨false, [], []⟩ ["CREATE TABLE a", "CREATE TABLE b"])).queue = []
    ∧ (connectDrain (runDDLs ⟨false, [], []⟩ ["CREATE TABLE a", "CREATE TABLE b"])).connected = true
    ∧ connectDrain (connectDrain (runDDLs ⟨false, [], []⟩ ["CREATE TABLE a", "CREATE TABLE b"]))
        = connectDrain (runDDLs ⟨false, [], []⟩ ["CREATE TABLE a", "CREATE TABLE b"]) :=
  ddl_queue_fifo ⟨false, [], []⟩ ["CREATE TABLE a", "CREATE TABLE b"] rfl

end NodeCassandra
